import Mathlib

/-!
Verification development for the `dbt-training` repository.

The repository holds two standalone Python scripts:

* `scripts/export_bq_tables.py` — the Exporter: lists the tables of a fixed
  BigQuery dataset, fetches each table's schema and rows, and writes one CSV
  file per table into a fixed output directory.
* `scripts/load_jsonl_to_bq.py` — the Loader: checks a fixed local JSONL file
  exists, ensures a destination dataset exists, and submits one load job with
  newline-delimited-JSON format, schema autodetection and WRITE_TRUNCATE
  disposition, blocking on its result.

This file gives a shallow embedding of both scripts.  The remote warehouse
client is modelled as a record of response functions (its request/response
contract); the local filesystem is an explicit state (directories plus files);
a CSV file's content is the list of records handed to `csv.writer.writerow`,
with byte-level serialization (`serializeFile`) defined separately exactly as
Python's `csv.writer` (excel dialect) renders records.
-/

namespace ExportBqTables

/-- Errors a run can end with: a `SystemExit` with a message (the scripts'
explicit `raise SystemExit(...)`), or an exception propagating from a remote
call, carried abstractly as a message. -/
inductive Err where
  | systemExit (msg : String)
  | remote (msg : String)
deriving DecidableEq, Repr

/-- Constant `PROJECT_ID` at the top of `export_bq_tables.py`. -/
def PROJECT_ID : String := "saras-bigquery"

/-- Constant `DATASET_ID` at the top of `export_bq_tables.py`. -/
def DATASET_ID : String := "dbt_training_marts"

/-- Constant `OUTPUT_DIR`: `<repo>/exports/<DATASET_ID>`, kept as a plain
path string. -/
def OUTPUT_DIR : String := "exports/" ++ DATASET_ID

/-- A schema field: the script only reads `field.name`. -/
structure Field where
  name : String
deriving DecidableEq, Repr

/-- Table metadata as returned by `client.get_table`: the table id and its
column schema in declaration order. -/
structure Table where
  table_id : String
  schema : List Field
deriving DecidableEq, Repr

/-- A row returned by the remote source: a finite mapping from column name to
scalar value, kept as an association list.  Values are carried in their
rendered (string) form, `none` standing for SQL NULL / an absent field. -/
structure Row where
  entries : List (String × String)
deriving DecidableEq, Repr

/-- Model of `row.get(name)`: the row's value for that column, or `none` when the row
has no value for it. -/
def Row.get (r : Row) (name : String) : Option String :=
  (r.entries.find? (fun e => e.1 = name)).map Prod.snd

/-- A cell handed to `csv.writer.writerow`: a value or Python `None`. -/
abbrev Cell := Option String

/-- How Python's `csv` module renders a cell: `None` becomes the empty
string, a string is taken as is. -/
def renderCell : Cell → String
  | none => ""
  | some s => s

/-- Excel-dialect quoting test used by `csv.writer` with QUOTE_MINIMAL:
a field is quoted when it holds the delimiter, the quote char, CR or LF. -/
def needsQuote (s : String) : Bool :=
  s.contains ',' || s.contains '"' || s.contains '\n' || s.contains '\r'

/-- One serialized CSV field under QUOTE_MINIMAL: quoted with doubled inner
quotes when needed, verbatim otherwise. -/
def csvField (s : String) : String :=
  if needsQuote s then "\"" ++ s.replace "\"" "\"\"" ++ "\"" else s

/-- One serialized CSV record line, terminated by CRLF (the `csv.writer`
default, which is why the file is opened with `newline=""`). -/
def csvLine (rec : List Cell) : String :=
  String.intercalate "," (rec.map (fun c => csvField (renderCell c))) ++ "\r\n"

/-- The bytes of a CSV file holding the given records in order. -/
def serializeFile (recs : List (List Cell)) : String :=
  String.join (recs.map csvLine)

/-- The local filesystem: a set of existing directories and a map from path
to CSV file content (the records written to it). -/
structure FS where
  dirs : List String
  files : List (String × List (List Cell))
deriving Repr

/-- Model of `Path.mkdir(parents=True, exist_ok=True)`: create the directory if it is
absent, do nothing otherwise. -/
def FS.mkdir (fs : FS) (d : String) : FS :=
  if d ∈ fs.dirs then fs else { fs with dirs := d :: fs.dirs }

/-- Model of `open(path, "w")` followed by writing fresh content: whatever was at the
path is replaced by the new content. -/
def FS.writeFile (fs : FS) (p : String) (c : List (List Cell)) : FS :=
  { fs with files := (p, c) :: fs.files.filter (fun e => ¬ e.1 = p) }

/-- Content at a path, when a file exists there. -/
def FS.read (fs : FS) (p : String) : Option (List (List Cell)) :=
  (fs.files.find? (fun e => e.1 = p)).map Prod.snd

/-- A table reference, as yielded by `client.list_tables`; the script treats
it opaquely and passes it to `client.get_table`. -/
abbrev TableRef := String

/-- The result of iterating `client.list_rows(table)`: the rows the iterator
yields, in order, and — when iteration raises before being exhausted, or the
`list_rows` call itself raises — the error raised after those rows
(`rows = []` for a failure of the call itself). -/
structure RowsResult where
  rows : List Row
  err : Option Err
deriving Repr

/-- The remote warehouse client, as the fixed request/response contract the
script uses: the tables `list_tables` yields for the fixed dataset, the
metadata `get_table` returns (or the exception it raises), and the row
iteration each table produces. -/
structure Client where
  tables : List TableRef
  get_table : TableRef → Except Err Table
  list_rows : Table → RowsResult

/-- The per-row loop body: `[row.get(name) for name in fieldnames]`. -/
def rowRecord (fieldnames : List String) (r : Row) : List Cell :=
  fieldnames.map (fun n => r.get n)

/-- The `for row in rows: writer.writerow(...)` loop: each iteration appends
one record to the records already written to the open file. -/
def writeAll (written : List (List Cell)) (fieldnames : List String) :
    List Row → List (List Cell)
  | [] => written
  | r :: rs => writeAll (written ++ [rowRecord fieldnames r]) fieldnames rs

/-- The full content written to a table's file: the header record
(`writer.writerow(fieldnames)`) followed by the row loop. -/
def fileRecords (fieldnames : List String) (rows : List Row) : List (List Cell) :=
  writeAll [fieldnames.map some] fieldnames rows

/-- Path `OUTPUT_DIR / f"{table.table_id}.csv"`. -/
def outputPath (tid : String) : String :=
  OUTPUT_DIR ++ "/" ++ tid ++ ".csv"

/-- Function `export_table(client, table_ref)`: fetch metadata, ensure the output
directory, open the file for overwrite, write the header then one record per
yielded row, and return the path.  A `get_table` failure propagates before
any filesystem effect; a row-iteration failure propagates after the records
yielded so far were written (the partial file stays on disk). -/
def export_table (client : Client) (table_ref : TableRef) (fs : FS) :
    FS × Except Err String :=
  match client.get_table table_ref with
  | .error e => (fs, .error e)
  | .ok table =>
      let fs1 := fs.mkdir OUTPUT_DIR
      let fieldnames := table.schema.map Field.name
      let rr := client.list_rows table
      let fs2 := fs1.writeFile (outputPath table.table_id)
        (fileRecords fieldnames rr.rows)
      match rr.err with
      | some e => (fs2, .error e)
      | none => (fs2, .ok (outputPath table.table_id))

/-- The `for t in tables` loop of `main`: export each table in order,
collecting the returned paths; the first propagating exception aborts the
loop, leaving the filesystem as it is at that point. -/
def goExport (client : Client) : List TableRef → FS → FS × Except Err (List String)
  | [], fs => (fs, .ok [])
  | t :: ts, fs =>
      match export_table client t fs with
      | (fs1, .error e) => (fs1, .error e)
      | (fs1, .ok p) =>
          match goExport client ts fs1 with
          | (fs2, .error e) => (fs2, .error e)
          | (fs2, .ok ps) => (fs2, .ok (p :: ps))

/-- Function `main()`: list the dataset's tables; on an empty dataset raise
`SystemExit` with the "No tables found" message before touching the
filesystem; otherwise export every table in order. -/
def main (client : Client) (fs : FS) : FS × Except Err (List String) :=
  if client.tables = [] then
    (fs, .error (.systemExit ("No tables found in " ++ PROJECT_ID ++ "." ++ DATASET_ID)))
  else
    goExport client client.tables fs

/-- The file writes (path, records) the export loop performs on the given
table list, in order, cut short at the first propagating failure.
`export_table` never reads the filesystem, so the writes of a run are a
function of the client alone; this is the abstraction behind the
idempotence proof. -/
def exportWrites (client : Client) : List TableRef → List (String × List (List Cell))
  | [] => []
  | t :: ts =>
      match client.get_table t with
      | .error _ => []
      | .ok table =>
          let w := (outputPath table.table_id,
            fileRecords (table.schema.map Field.name) (client.list_rows table).rows)
          match (client.list_rows table).err with
          | some _ => [w]
          | none => w :: exportWrites client ts

/-- The last write a write sequence makes to a path, when any. -/
def lookupWrites : List (String × List (List Cell)) → String → Option (List (List Cell))
  | [], _ => none
  | w :: ws, p => (lookupWrites ws p).orElse (fun _ => if w.1 = p then some w.2 else none)

/-! ### Concrete fixtures used to instantiate the theorems -/

/-- A concrete two-column table. -/
def wTable : Table := { table_id := "orders_mart", schema := [⟨"order_id"⟩, ⟨"total"⟩] }

/-- A row with a value for every schema column. -/
def wRow1 : Row := { entries := [("order_id", "1"), ("total", "10.5")] }

/-- A row missing `order_id` and carrying a field outside the schema. -/
def wRow2 : Row := { entries := [("total", "3"), ("extra", "z")] }

/-- An empty starting filesystem. -/
def wFS : FS := { dirs := [], files := [] }

/-- A client whose single table yields two rows and no failure. -/
def wClient : Client :=
  { tables := ["orders_mart"]
    get_table := fun _ => .ok wTable
    list_rows := fun _ => { rows := [wRow1, wRow2], err := none } }

/-- A client whose single table yields zero rows. -/
def wClientEmptyRows : Client :=
  { tables := ["orders_mart"]
    get_table := fun _ => .ok wTable
    list_rows := fun _ => { rows := [], err := none } }

/-- A client listing no tables at all. -/
def wClientNoTables : Client :=
  { tables := []
    get_table := fun _ => .ok wTable
    list_rows := fun _ => { rows := [], err := none } }

/-- A client whose metadata fetch raises. -/
def wClientGetFail : Client :=
  { tables := ["orders_mart"]
    get_table := fun _ => .error (.remote "get_table boom")
    list_rows := fun _ => { rows := [], err := none } }

/-- A client whose row iteration raises after yielding one row. -/
def wClientRowFail : Client :=
  { tables := ["orders_mart"]
    get_table := fun _ => .ok wTable
    list_rows := fun _ => { rows := [wRow1], err := some (.remote "row boom") } }

end ExportBqTables

namespace LoadJsonlToBq

open ExportBqTables (Err)

/-- Constant `PROJECT_ID` at the top of `load_jsonl_to_bq.py`. -/
def PROJECT_ID : String := "saras-bigquery"

/-- Constant `DATASET_ID` at the top of `load_jsonl_to_bq.py`. -/
def DATASET_ID : String := "raw_shopify"

/-- Constant `TABLE_ID` at the top of `load_jsonl_to_bq.py`. -/
def TABLE_ID : String := "orders"

/-- Constant `FILE_PATH`: the fixed local source file,
`<repo>/RAW_DATASETS/bquxjob_12dd921d_19c2829b22b_yourgpt.jsonl`, kept as a
plain path string. -/
def FILE_PATH : String := "RAW_DATASETS/bquxjob_12dd921d_19c2829b22b_yourgpt.jsonl"

/-- String `f"{PROJECT_ID}.{DATASET_ID}.{TABLE_ID}"`. -/
def table_ref : String := PROJECT_ID ++ "." ++ DATASET_ID ++ "." ++ TABLE_ID

/-- Values of `bigquery.SourceFormat` the script can choose from. -/
inductive SourceFormat where
  | NEWLINE_DELIMITED_JSON
  | CSV
  | AVRO
deriving DecidableEq, Repr

/-- Values of `bigquery.WriteDisposition`. -/
inductive WriteDisposition where
  | WRITE_TRUNCATE
  | WRITE_APPEND
  | WRITE_EMPTY
deriving DecidableEq, Repr

/-- Model of `bigquery.LoadJobConfig(...)`: the three settings the script passes. -/
structure LoadJobConfig where
  source_format : SourceFormat
  autodetect : Bool
  write_disposition : WriteDisposition
deriving DecidableEq, Repr

/-- The `job_config` the script constructs. -/
def job_config : LoadJobConfig :=
  { source_format := .NEWLINE_DELIMITED_JSON
    autodetect := true
    write_disposition := .WRITE_TRUNCATE }

/-- The remote warehouse state the Loader touches: which datasets exist in
the project. -/
structure RemoteState where
  datasets : List String
deriving DecidableEq, Repr

/-- The observable steps of one Loader run, in order: client construction,
then each remote call the script makes. -/
inductive Event where
  | clientInit
  | getDataset (project dataset : String)
  | createDataset (dataset location : String)
  | loadTableFromFile (src dest : String) (config : LoadJobConfig)
  | jobWait
deriving DecidableEq, Repr

/-- Recognises the load-job submission event. -/
def Event.isLoadSubmit : Event → Bool
  | .loadTableFromFile _ _ _ => true
  | _ => false

/-- Model of `client.create_dataset(dataset, exists_ok=ok)`: registers the dataset;
raises "already exists" only when it exists and `exists_ok` is false. -/
def create_dataset (st : RemoteState) (ds : String) (exists_ok : Bool) :
    Except Err RemoteState :=
  if ds ∈ st.datasets then
    if exists_ok then .ok st
    else .error (.remote ("Already Exists: Dataset " ++ ds))
  else .ok { st with datasets := ds :: st.datasets }

/-- Outcome of one Loader run: the events in order, the remote state after
the run, whether `create_dataset` was called, and either the reported
`job.output_rows` or the error the process died with. -/
structure LoaderRun where
  events : List Event
  remote : RemoteState
  created : Bool
  outcome : Except Err Nat
deriving Repr

/-- The tail of the script after the dataset is ensured: build `job_config`,
open the file, `client.load_table_from_file(...)`, `job.result()` (blocking
until the job is terminal — a terminal failure propagates from `result()`),
then report `job.output_rows`.  `jobRun` is the remote service's verdict on
the submitted job: the rows written, or the terminal error. -/
def submitAndWait (evs : List Event) (st : RemoteState) (created : Bool)
    (jobRun : String → LoadJobConfig → Except Err Nat) : LoaderRun :=
  { events := evs ++ [Event.loadTableFromFile FILE_PATH table_ref job_config, Event.jobWait]
    remote := st
    created := created
    outcome := jobRun table_ref job_config }

/-- The whole script `load_jsonl_to_bq.py`, parametrised by whether the fixed
source file exists, the remote dataset state, and the job verdict.  The
`try: get_dataset / except: create_dataset` block is modelled with the
service's normal contract: `get_dataset` succeeds exactly when the dataset
exists, so the except-branch runs exactly when it is absent. -/
def load_script (fileExists : Bool) (st : RemoteState)
    (jobRun : String → LoadJobConfig → Except Err Nat) : LoaderRun :=
  if fileExists = false then
    { events := []
      remote := st
      created := false
      outcome := .error (.systemExit ("File not found: " ++ FILE_PATH)) }
  else
    let evs := [Event.clientInit, Event.getDataset PROJECT_ID DATASET_ID]
    if DATASET_ID ∈ st.datasets then
      submitAndWait evs st false jobRun
    else
      match create_dataset st DATASET_ID true with
      | .error e =>
          { events := evs ++ [Event.createDataset DATASET_ID "US"]
            remote := st
            created := true
            outcome := .error e }
      | .ok st1 =>
          submitAndWait (evs ++ [Event.createDataset DATASET_ID "US"]) st1 true jobRun

end LoadJsonlToBq

namespace ExportBqTables

/-! ### Helper lemmas about the filesystem model and the writer loop -/

theorem writeAll_eq (f : List String) :
    ∀ (rs : List Row) (w : List (List Cell)),
      writeAll w f rs = w ++ rs.map (rowRecord f)
  | [], w => by simp [writeAll]
  | r :: rs, w => by
      simp [writeAll, writeAll_eq f rs (w ++ [rowRecord f r])]

theorem fileRecords_eq (f : List String) (rs : List Row) :
    fileRecords f rs = f.map some :: rs.map (rowRecord f) := by
  simp [fileRecords, writeAll_eq]

theorem FS.read_mkdir (fs : FS) (d p : String) :
    (fs.mkdir d).read p = fs.read p := by
  unfold FS.mkdir FS.read
  split <;> rfl

theorem find?_filter_ne (p q : String) (hne : ¬ q = p) :
    ∀ l : List (String × List (List Cell)),
      (l.filter (fun e => ¬ e.1 = p)).find? (fun e => e.1 = q) =
        l.find? (fun e => e.1 = q)
  | [] => rfl
  | e :: l => by
      by_cases h1 : e.1 = p
      · have h2 : ¬ e.1 = q := fun h => hne (h ▸ h1)
        rw [List.filter_cons_of_neg (by simpa using h1),
          find?_filter_ne p q hne l,
          List.find?_cons_of_neg l (by simpa using h2)]
      · by_cases h2 : e.1 = q
        · rw [List.filter_cons_of_pos (by simpa using h1),
            List.find?_cons_of_pos _ (by simpa using h2),
            List.find?_cons_of_pos l (by simpa using h2)]
        · rw [List.filter_cons_of_pos (by simpa using h1),
            List.find?_cons_of_neg _ (by simpa using h2),
            List.find?_cons_of_neg l (by simpa using h2),
            find?_filter_ne p q hne l]

theorem FS.read_writeFile (fs : FS) (p q : String) (c : List (List Cell)) :
    (fs.writeFile p c).read q = if q = p then some c else fs.read q := by
  unfold FS.writeFile FS.read
  by_cases h : q = p
  · rw [if_pos h]
    rw [List.find?_cons_of_pos _ (by simpa using h.symm)]
    rfl
  · have h' : ¬ p = q := fun hpq => h hpq.symm
    rw [if_neg h]
    rw [List.find?_cons_of_neg _ (by simpa using h'),
      find?_filter_ne p q h fs.files]

theorem export_table_get_error (client : Client) (table_ref : TableRef) (fs : FS)
    (e : Err) (hget : client.get_table table_ref = .error e) :
    export_table client table_ref fs = (fs, .error e) := by
  unfold export_table
  rw [hget]

theorem export_table_fs (client : Client) (table_ref : TableRef) (fs : FS)
    (table : Table) (hget : client.get_table table_ref = .ok table) :
    (export_table client table_ref fs).1 =
      (fs.mkdir OUTPUT_DIR).writeFile (outputPath table.table_id)
        (fileRecords (table.schema.map Field.name) (client.list_rows table).rows) := by
  unfold export_table
  rw [hget]
  cases herr : (client.list_rows table).err <;> simp [herr]

theorem export_table_rows_error (client : Client) (table_ref : TableRef) (fs : FS)
    (table : Table) (e : Err) (hget : client.get_table table_ref = .ok table)
    (herr : (client.list_rows table).err = some e) :
    export_table client table_ref fs =
      ((fs.mkdir OUTPUT_DIR).writeFile (outputPath table.table_id)
          (fileRecords (table.schema.map Field.name) (client.list_rows table).rows),
        .error e) := by
  unfold export_table
  rw [hget]
  simp [herr]

theorem export_table_rows_ok (client : Client) (table_ref : TableRef) (fs : FS)
    (table : Table) (hget : client.get_table table_ref = .ok table)
    (herr : (client.list_rows table).err = none) :
    export_table client table_ref fs =
      ((fs.mkdir OUTPUT_DIR).writeFile (outputPath table.table_id)
          (fileRecords (table.schema.map Field.name) (client.list_rows table).rows),
        .ok (outputPath table.table_id)) := by
  unfold export_table
  rw [hget]
  simp [herr]

theorem option_orElse_assoc {α : Type} (a b c : Option α) :
    (a.orElse fun _ => b).orElse (fun _ => c) =
      a.orElse (fun _ => b.orElse (fun _ => c)) := by
  cases a <;> rfl

theorem ite_some_orElse {α : Type} (P : Prop) [Decidable P] (x : α) (o : Option α) :
    (if P then some x else o) =
      (if P then some x else none).orElse (fun _ => o) := by
  split <;> rfl

theorem goExport_cons (client : Client) (t : TableRef) (ts : List TableRef) (fs : FS) :
    goExport client (t :: ts) fs =
      match export_table client t fs with
      | (fs1, .error e) => (fs1, .error e)
      | (fs1, .ok p) =>
          match goExport client ts fs1 with
          | (fs2, .error e) => (fs2, .error e)
          | (fs2, .ok ps) => (fs2, .ok (p :: ps)) := rfl

theorem exportWrites_cons (client : Client) (t : TableRef) (ts : List TableRef) :
    exportWrites client (t :: ts) =
      match client.get_table t with
      | .error _ => []
      | .ok table =>
          match (client.list_rows table).err with
          | some _ => [(outputPath table.table_id,
              fileRecords (table.schema.map Field.name) (client.list_rows table).rows)]
          | none => (outputPath table.table_id,
              fileRecords (table.schema.map Field.name) (client.list_rows table).rows)
              :: exportWrites client ts := rfl

theorem goExport_read (client : Client) :
    ∀ (ts : List TableRef) (fs : FS) (p : String),
      ((goExport client ts fs).1).read p =
        (lookupWrites (exportWrites client ts) p).orElse (fun _ => fs.read p)
  | [], fs, p => by simp [goExport, exportWrites, lookupWrites]
  | t :: ts, fs, p => by
      cases hget : client.get_table t with
      | error e =>
          rw [show goExport client (t :: ts) fs = (fs, .error e) by
            unfold goExport
            rw [export_table_get_error client t fs e hget]]
          simp [exportWrites, hget, lookupWrites]
      | ok table =>
          cases herr : (client.list_rows table).err with
          | some e =>
              rw [show goExport client (t :: ts) fs =
                  ((fs.mkdir OUTPUT_DIR).writeFile (outputPath table.table_id)
                      (fileRecords (table.schema.map Field.name)
                        (client.list_rows table).rows),
                    .error e) by
                unfold goExport
                rw [export_table_rows_error client t fs table e hget herr]]
              rw [FS.read_writeFile, FS.read_mkdir]
              unfold exportWrites
              rw [hget]
              simp only [herr, lookupWrites]
              rw [ite_some_orElse]
              by_cases hp : outputPath table.table_id = p
              · rw [if_pos hp, if_pos hp.symm]
                rfl
              · rw [if_neg hp, if_neg (fun h => hp h.symm)]
                rfl
          | none =>
              have hcons : exportWrites client (t :: ts) =
                  (outputPath table.table_id,
                    fileRecords (table.schema.map Field.name)
                      (client.list_rows table).rows) :: exportWrites client ts := by
                rw [exportWrites_cons, hget]
                simp [herr]
              have hstep : ((goExport client (t :: ts) fs).1) =
                  ((goExport client ts
                    ((fs.mkdir OUTPUT_DIR).writeFile (outputPath table.table_id)
                      (fileRecords (table.schema.map Field.name)
                        (client.list_rows table).rows))).1) := by
                rw [goExport_cons, export_table_rows_ok client t fs table hget herr]
                cases hrec : goExport client ts
                    ((fs.mkdir OUTPUT_DIR).writeFile (outputPath table.table_id)
                      (fileRecords (table.schema.map Field.name)
                        (client.list_rows table).rows)) with
                | mk fs2 res => cases res <;> simp [hrec]
              rw [hstep,
                goExport_read client ts
                  ((fs.mkdir OUTPUT_DIR).writeFile (outputPath table.table_id)
                    (fileRecords (table.schema.map Field.name)
                      (client.list_rows table).rows)) p,
                FS.read_writeFile, FS.read_mkdir, hcons]
              simp only [lookupWrites]
              rw [option_orElse_assoc]
              cases lookupWrites (exportWrites client ts) p with
              | some c => rfl
              | none =>
                  by_cases hp : p = outputPath table.table_id
                  · rw [if_pos hp]
                    have : (outputPath table.table_id = p) := hp.symm
                    show some (fileRecords (table.schema.map Field.name)
                        (client.list_rows table).rows) =
                      Option.orElse (if outputPath table.table_id = p
                          then some (fileRecords (table.schema.map Field.name)
                            (client.list_rows table).rows) else none)
                        (fun _ => fs.read p)
                    rw [if_pos this]
                    rfl
                  · rw [if_neg hp]
                    show fs.read p =
                      Option.orElse (if outputPath table.table_id = p
                          then some (fileRecords (table.schema.map Field.name)
                            (client.list_rows table).rows) else none)
                        (fun _ => fs.read p)
                    rw [if_neg (fun h => hp h.symm)]
                    rfl

theorem main_read (client : Client) (fs : FS) (p : String) :
    ((main client fs).1).read p =
      if client.tables = [] then fs.read p
      else (lookupWrites (exportWrites client client.tables) p).orElse
        (fun _ => fs.read p) := by
  unfold main
  by_cases h : client.tables = []
  · rw [if_pos h, if_pos h]
  · rw [if_neg h, if_neg h, goExport_read]

end ExportBqTables

namespace ExportBqTables

/-! ### Claim theorems for the Exporter -/

/-- C1: for every table the Exporter exports, every row returned by the
remote row source appears as exactly one CSV record in the table's output
file, in the order the source returned the rows, with values in the same
column order as the header, each value being the row's value for the column
or the null marker when absent, and with no reordering or deduplication:
the file's records are exactly the header followed by the image of the row
list under the per-row record map. -/
theorem exporter_rows_exact (client : Client) (table_ref : TableRef) (fs : FS)
    (table : Table) (hget : client.get_table table_ref = .ok table)
    (herr : (client.list_rows table).err = none) :
    (export_table client table_ref fs).2 = .ok (outputPath table.table_id) ∧
    (export_table client table_ref fs).1.read (outputPath table.table_id) =
      some ((table.schema.map Field.name).map some ::
        (client.list_rows table).rows.map
          (fun r => (table.schema.map Field.name).map (fun n => r.get n))) := by
  rw [export_table_rows_ok client table_ref fs table hget herr]
  refine ⟨rfl, ?_⟩
  rw [FS.read_writeFile, if_pos rfl, fileRecords_eq]
  rfl

/-- Witness for C1: a concrete client with one table of two columns and two
rows — the second row lacking the first column and carrying an extra field —
exports to the header plus exactly those two rows in order, the missing
value as the null marker. -/
theorem exporter_rows_exact_witness :
    (export_table wClient "orders_mart" wFS).2 = .ok (outputPath "orders_mart") ∧
    (export_table wClient "orders_mart" wFS).1.read (outputPath "orders_mart") =
      some [[some "order_id", some "total"],
        [some "1", some "10.5"],
        [none, some "3"]] := by
  have h := exporter_rows_exact wClient "orders_mart" wFS wTable rfl rfl
  exact ⟨h.1, h.2.trans (by rfl)⟩

/-- C2: the first record of every produced CSV file is the header, exactly
the table's column names in the order of the schema fetched at export time
(no sorting, no validation against earlier exports): it equals the fetched
schema's name list both as cells and after rendering. -/
theorem exporter_header_matches_schema (client : Client) (table_ref : TableRef)
    (fs : FS) (table : Table) (hget : client.get_table table_ref = .ok table) :
    ∃ recs, (export_table client table_ref fs).1.read (outputPath table.table_id) =
      some recs ∧
      recs.head? = some ((table.schema.map Field.name).map some) ∧
      recs.head?.map (fun rec => rec.map renderCell) =
        some (table.schema.map Field.name) := by
  rw [export_table_fs client table_ref fs table hget, FS.read_writeFile, if_pos rfl,
    fileRecords_eq]
  refine ⟨_, rfl, rfl, ?_⟩
  simp [renderCell]

/-- Witness for C2: the concrete client's export file starts with the header
record listing the two schema columns in order. -/
theorem exporter_header_matches_schema_witness :
    ∃ recs, (export_table wClient "orders_mart" wFS).1.read (outputPath "orders_mart") =
      some recs ∧
      recs.head? = some ((wTable.schema.map Field.name).map some) ∧
      recs.head?.map (fun rec => rec.map renderCell) =
        some (wTable.schema.map Field.name) :=
  exporter_header_matches_schema wClient "orders_mart" wFS wTable rfl

/-- C9: for a table whose row source yields zero rows, `export_table` still
succeeds: the table's file is written holding exactly the header record and
nothing else, and the file's path is returned. -/
theorem exporter_empty_rows_header_only (client : Client) (table_ref : TableRef)
    (fs : FS) (table : Table) (hget : client.get_table table_ref = .ok table)
    (hrows : client.list_rows table = { rows := [], err := none }) :
    (export_table client table_ref fs).2 = .ok (outputPath table.table_id) ∧
    (export_table client table_ref fs).1.read (outputPath table.table_id) =
      some [(table.schema.map Field.name).map some] := by
  have herr : (client.list_rows table).err = none := by rw [hrows]
  rw [export_table_rows_ok client table_ref fs table hget herr]
  refine ⟨rfl, ?_⟩
  rw [FS.read_writeFile, if_pos rfl, hrows, fileRecords_eq]
  rfl

/-- Witness for C9: the zero-row concrete client produces a file holding
only the header record. -/
theorem exporter_empty_rows_header_only_witness :
    (export_table wClientEmptyRows "orders_mart" wFS).2 = .ok (outputPath "orders_mart") ∧
    (export_table wClientEmptyRows "orders_mart" wFS).1.read (outputPath "orders_mart") =
      some [[some "order_id", some "total"]] := by
  have h := exporter_empty_rows_header_only wClientEmptyRows "orders_mart" wFS wTable rfl rfl
  exact ⟨h.1, h.2⟩

/-- C10: every record the Exporter writes has exactly one field per header
column — row fields outside the schema are omitted (each data record is the
map over the header's names, a row's missing value appearing as the null
cell), so every record's length equals the header's column count. -/
theorem exporter_field_count_invariant (client : Client) (table_ref : TableRef)
    (fs : FS) (table : Table) (hget : client.get_table table_ref = .ok table) :
    ∃ recs, (export_table client table_ref fs).1.read (outputPath table.table_id) =
      some recs ∧
      recs = (table.schema.map Field.name).map some ::
        (client.list_rows table).rows.map
          (fun r => (table.schema.map Field.name).map (fun n => r.get n)) ∧
      ∀ rec ∈ recs, rec.length = table.schema.length := by
  rw [export_table_fs client table_ref fs table hget, FS.read_writeFile, if_pos rfl,
    fileRecords_eq]
  refine ⟨_, rfl, rfl, ?_⟩
  intro rec hrec
  rcases List.mem_cons.mp hrec with h | h
  · rw [h]
    simp
  · rcases List.mem_map.mp h with ⟨r, hr, hrec2⟩
    rw [← hrec2]
    simp [rowRecord]

/-- Witness for C10: on the concrete client every written record — header
and both data records, one built from a row with an extra field — has the
schema's two fields. -/
theorem exporter_field_count_invariant_witness :
    ∃ recs, (export_table wClient "orders_mart" wFS).1.read (outputPath "orders_mart") =
      some recs ∧
      recs = (wTable.schema.map Field.name).map some ::
        (wClient.list_rows wTable).rows.map
          (fun r => (wTable.schema.map Field.name).map (fun n => r.get n)) ∧
      ∀ rec ∈ recs, rec.length = wTable.schema.length :=
  exporter_field_count_invariant wClient "orders_mart" wFS wTable rfl

/-- C4: when the dataset lists zero tables, `main` halts with `SystemExit`
carrying the "No tables found" message and the filesystem is returned
untouched — the output directory was not created and no file was created or
written. -/
theorem exporter_no_tables_halts (client : Client) (fs : FS)
    (h : client.tables = []) :
    main client fs =
      (fs, .error (.systemExit "No tables found in saras-bigquery.dbt_training_marts")) := by
  unfold main
  rw [if_pos h]
  rfl

/-- Witness for C4: the concrete table-less client halts immediately on an
empty filesystem, leaving it empty. -/
theorem exporter_no_tables_halts_witness :
    main wClientNoTables wFS =
      (wFS, .error (.systemExit "No tables found in saras-bigquery.dbt_training_marts")) :=
  exporter_no_tables_halts wClientNoTables wFS rfl

/-- C7: running the Exporter twice against an unchanged client (same tables,
same schemas, same rows in the same order) leaves every path's file content
identical to what the first run produced, both as records and as serialized
bytes: the export is idempotent and deterministic in its inputs. -/
theorem exporter_idempotent (client : Client) (fs : FS) (p : String) :
    ((main client (main client fs).1).1).read p = ((main client fs).1).read p ∧
    (((main client (main client fs).1).1).read p).map serializeFile =
      (((main client fs).1).read p).map serializeFile := by
  have h : ((main client (main client fs).1).1).read p = ((main client fs).1).read p := by
    rw [main_read client (main client fs).1 p, main_read client fs p]
    by_cases htab : client.tables = []
    · simp only [if_pos htab]
    · simp only [if_neg htab]
      cases lookupWrites (exportWrites client client.tables) p <;> rfl
  exact ⟨h, by rw [h]⟩

/-- C8: a metadata-fetch failure or a row-fetch failure on a table makes the
export loop return that error at once: no later table is processed, and the
filesystem keeps everything already written — in the row-fetch case the
partially written file (header plus the rows yielded before the failure)
stays in place, with no cleanup. -/
theorem exporter_failure_aborts (client : Client) (t : TableRef)
    (rest : List TableRef) (fs : FS) :
    (∀ e, client.get_table t = .error e →
      goExport client (t :: rest) fs = (fs, .error e)) ∧
    (∀ table e, client.get_table t = .ok table →
      (client.list_rows table).err = some e →
      goExport client (t :: rest) fs =
        ((fs.mkdir OUTPUT_DIR).writeFile (outputPath table.table_id)
            (fileRecords (table.schema.map Field.name)
              (client.list_rows table).rows),
          .error e)) := by
  constructor
  · intro e hget
    rw [goExport_cons, export_table_get_error client t fs e hget]
  · intro table e hget herr
    rw [goExport_cons, export_table_rows_error client t fs table e hget herr]

/-- Witness for C8: with a second table still pending, a metadata-fetch
failure aborts with the filesystem unchanged, and a row-fetch failure after
one yielded row aborts leaving exactly the partial file (header plus that
row) behind. -/
theorem exporter_failure_aborts_witness :
    goExport wClientGetFail ["orders_mart", "t2"] wFS =
      (wFS, .error (.remote "get_table boom")) ∧
    goExport wClientRowFail ["orders_mart", "t2"] wFS =
      ((wFS.mkdir OUTPUT_DIR).writeFile (outputPath "orders_mart")
          (fileRecords ["order_id", "total"] [wRow1]),
        .error (.remote "row boom")) := by
  constructor
  · exact (exporter_failure_aborts wClientGetFail "orders_mart" ["t2"] wFS).1
      (.remote "get_table boom") rfl
  · exact (exporter_failure_aborts wClientRowFail "orders_mart" ["t2"] wFS).2
      wTable (.remote "row boom") rfl rfl

end ExportBqTables

namespace LoadJsonlToBq

open ExportBqTables (Err)

/-! ### Claim theorems for the Loader -/

/-- C3: the Loader creates the destination dataset exactly when it is absent
before the run (under the service's normal contract, where the metadata
fetch succeeds exactly on an existing dataset), the dataset exists after the
run, and a second run in succession performs no dataset creation at all —
so running twice cannot error on dataset creation. -/
theorem loader_dataset_create_iff (st : RemoteState)
    (jobRun : String → LoadJobConfig → Except Err Nat) :
    ((load_script true st jobRun).created = true ↔ DATASET_ID ∉ st.datasets) ∧
    DATASET_ID ∈ (load_script true st jobRun).remote.datasets ∧
    (load_script true (load_script true st jobRun).remote jobRun).created = false ∧
    ∀ loc, Event.createDataset DATASET_ID loc ∉
      (load_script true (load_script true st jobRun).remote jobRun).events := by
  unfold load_script submitAndWait create_dataset
  by_cases h : DATASET_ID ∈ st.datasets
  · simp [h, Event.clientInit]
  · simp [h, Event.clientInit]

/-- C5: when the fixed source file is absent the Loader halts with
`SystemExit` naming the missing file, before any step at all: no client
construction, no dataset access, no load-job submission, and the remote
state is untouched. -/
theorem loader_missing_file_halts (st : RemoteState)
    (jobRun : String → LoadJobConfig → Except Err Nat) :
    (load_script false st jobRun).events = [] ∧
    (load_script false st jobRun).remote = st ∧
    (load_script false st jobRun).created = false ∧
    (load_script false st jobRun).outcome =
      .error (.systemExit
        "File not found: RAW_DATASETS/bquxjob_12dd921d_19c2829b22b_yourgpt.jsonl") :=
  ⟨rfl, rfl, rfl, rfl⟩

/-- C6: the Loader submits exactly one load job, for the fixed source file
and the fixed destination table, configured with newline-delimited-JSON
source format, schema autodetection and WRITE_TRUNCATE disposition (full
overwrite, not append); the job wait follows the submission as the run's
last step, and the reported outcome is exactly the job's terminal verdict
(its written row count on success). -/
theorem loader_single_truncate_job (st : RemoteState)
    (jobRun : String → LoadJobConfig → Except Err Nat) :
    (load_script true st jobRun).events.filter Event.isLoadSubmit =
      [Event.loadTableFromFile FILE_PATH table_ref job_config] ∧
    job_config = { source_format := SourceFormat.NEWLINE_DELIMITED_JSON, autodetect := true, write_disposition := WriteDisposition.WRITE_TRUNCATE } ∧
    table_ref = "saras-bigquery.raw_shopify.orders" ∧
    (∃ pre, (load_script true st jobRun).events =
      pre ++ [Event.loadTableFromFile FILE_PATH table_ref job_config, Event.jobWait]) ∧
    (load_script true st jobRun).outcome = jobRun table_ref job_config := by
  unfold load_script submitAndWait create_dataset
  by_cases h : DATASET_ID ∈ st.datasets
  · refine ⟨?_, rfl, rfl, ?_, ?_⟩
    · simp [h, Event.isLoadSubmit]
    · refine ⟨[Event.clientInit, Event.getDataset PROJECT_ID DATASET_ID], ?_⟩
      simp [h]
    · simp [h]
  · refine ⟨?_, rfl, rfl, ?_, ?_⟩
    · simp [h, Event.isLoadSubmit]
    · refine ⟨[Event.clientInit, Event.getDataset PROJECT_ID DATASET_ID,
        Event.createDataset DATASET_ID "US"], ?_⟩
      simp [h]
    · simp [h]

end LoadJsonlToBq
